import Mathlib

/-!
Shallow embedding of `src/main.py` (TTFtoSVGConverter).

Font parsing is delegated to an external library (fontTools) in the source;
here a `Font` carries exactly the data the renderer reads from that library:
the glyph set (name-keyed glyphs, each with its extracted SVG path-command
string and optional bounds), the horizontal-metrics table `hmtx`
(advance width, left side bearing per glyph name, possibly missing an entry,
which in Python surfaces as an exception caught by the renderer), and the
font-wide `hhea` ascent/descent.  Characters are Lean `Char` (Python single
characters); `ord` is `Char.toNat`.  Python's float `line_height` arithmetic
is embedded over `ℚ` (the source multiplies exact design-unit integers by
the multiplier; the claims under check are about the algebraic structure of
those products, not float rounding).
-/

/-- A glyph as the renderer sees it through the external font library:
`pathData` is what `SVGPathPen`'s `getCommands()` returns for the glyph
(the outline-to-path translation is the external collaborator's job), and
`bounds` is `glyph.bounds`, `none` for an empty glyph. -/
structure Glyph where
  pathData : String
  bounds : Option (Int × Int × Int × Int)
deriving Repr, DecidableEq

/-- The font data read by the converter (`self.font` / `self.glyphset`). -/
structure Font where
  glyphSet : List (String × Glyph)
  hmtx : List (String × (Int × Int))
  ascent : Int
  descent : Int
deriving Repr, DecidableEq

/-- Python lookup in the glyph set (and the membership test behind it). -/
def Font.findGlyph (f : Font) (name : String) : Option Glyph :=
  (f.glyphSet.find? (fun p => p.1 = name)).map Prod.snd

/-- Python membership test of a name in the glyph set. -/
def Font.hasGlyph (f : Font) (name : String) : Bool :=
  (f.findGlyph name).isSome

/-- Lookup in the hmtx table; `none` models the exception path the
Python code catches with `except`. -/
def Font.lookupHmtx (f : Font) (name : String) : Option (Int × Int) :=
  (f.hmtx.find? (fun p => p.1 = name)).map Prod.snd

/-- Uppercase hexadecimal digit, as a one-character string. -/
def hexDigitU (n : Nat) : String :=
  if n = 0 then "0" else if n = 1 then "1" else if n = 2 then "2"
  else if n = 3 then "3" else if n = 4 then "4" else if n = 5 then "5"
  else if n = 6 then "6" else if n = 7 then "7" else if n = 8 then "8"
  else if n = 9 then "9" else if n = 10 then "A" else if n = 11 then "B"
  else if n = 12 then "C" else if n = 13 then "D" else if n = 14 then "E"
  else "F"

/-- Fuel-driven uppercase-hex rendering (structural recursion so the kernel
can evaluate it). -/
def toHexUAux : Nat → Nat → String
  | 0, _ => ""
  | fuel + 1, n =>
    if n < 16 then hexDigitU n
    else toHexUAux fuel (n / 16) ++ hexDigitU (n % 16)

/-- Python `format` of the code point in lowercase hex, then `upper()`: uppercase hexadecimal of a code
point, no leading zeros, no minimum width (`format(0,'x') = "0"`). -/
def toHexU (n : Nat) : String := toHexUAux (n + 1) n

/-- The primary glyph key `uni` followed by the hex built from a character. -/
def glyphName (c : Char) : String := "uni" ++ toHexU c.toNat

/-- The fallback key: the literal character itself. -/
def literalKey (c : Char) : String := String.mk [c]

/-- Style parameters (`fill_color`, `stroke_color`, `stroke_width`); the
source interpolates them verbatim into the style block (`stroke_width`
stringified). -/
structure Style where
  fillColor : String
  strokeColor : String
  strokeWidth : String
deriving Repr, DecidableEq

/-- The `viewbox_method` selector. -/
inductive VBMethod
  | metrics
  | bounds
deriving Repr, DecidableEq

/-- The SVG document template of `char_to_svg` (its f-string), as a function
of the interpolated slots `viewbox`, `ascent` (flip anchor), the style
fields and the path data. -/
def svgAssemble (viewbox : String) (anchor : Int) (st : Style) (d : String) : String :=
  "<?xml version=\"1.0\" encoding=\"UTF-8\"?>\n" ++
  "<svg xmlns=\"http://www.w3.org/2000/svg\" \n" ++
  "     version=\"1.1\" \n" ++
  "     viewBox=\"" ++ viewbox ++ "\">\n" ++
  "    <defs>\n" ++
  "        <style>\n" ++
  "            .glyph \x7b \n" ++
  "                fill: " ++ st.fillColor ++ "; \n" ++
  "                stroke: " ++ st.strokeColor ++ ";\n" ++
  "                stroke-width: " ++ st.strokeWidth ++ ";\n" ++
  "            \x7d\n" ++
  "        </style>\n" ++
  "    </defs>\n" ++
  "    <g transform=\"matrix(1 0 0 -1 0 " ++ toString anchor ++ ")\">\n" ++
  "        <path class=\"glyph\" d=\"" ++ d ++ "\"/>\n" ++
  "    </g>\n" ++
  "</svg>"

/-- Result of a successful `char_to_svg` call: the locals of the Python
function (`glyph_name`, `glyph`, `viewbox`, the flip anchor `ascent`,
`pen.getCommands()`) together with the returned `svg_content`. -/
structure CharSvg where
  usedGlyphName : String
  usedGlyph : Glyph
  viewbox : String
  anchor : Int
  pathData : String
  svg : String
deriving Repr, DecidableEq

/-- The viewBox computation and SVG assembly of `char_to_svg` after the
glyph has been resolved (source lines 101-146). -/
def renderResolved (f : Font) (gn : String) (g : Glyph) (st : Style)
    (m : VBMethod) : CharSvg :=
  let d := g.pathData
  match m with
  | .metrics =>
    let (width, lsb) :=
      match f.lookupHmtx gn with
      | some wl => wl
      | none => (1000, 0)
    let height := f.ascent - f.descent
    let viewbox :=
      toString lsb ++ " 0 " ++ toString width ++ " " ++ toString height
    { usedGlyphName := gn, usedGlyph := g, viewbox := viewbox,
      anchor := f.ascent, pathData := d,
      svg := svgAssemble viewbox f.ascent st d }
  | .bounds =>
    match g.bounds with
    | some (xMin, yMin, xMax, yMax) =>
      let viewbox :=
        toString xMin ++ " " ++ toString yMin ++ " " ++
        toString (xMax - xMin) ++ " " ++ toString (yMax - yMin)
      { usedGlyphName := gn, usedGlyph := g, viewbox := viewbox,
        anchor := yMax, pathData := d,
        svg := svgAssemble viewbox yMax st d }
    | none =>
      { usedGlyphName := gn, usedGlyph := g, viewbox := "0 0 1000 1000",
        anchor := 1000, pathData := d,
        svg := svgAssemble "0 0 1000 1000" 1000 st d }

/-- Main operation `char_to_svg`: resolve the glyph (primary key `uni<HEX>`, then the
literal character, else raise a `ValueError`), then render.  The error
value carries the offending character (the Python message names it). -/
def char_to_svg (f : Font) (c : Char) (st : Style) (m : VBMethod) :
    Except Char CharSvg :=
  match f.findGlyph (glyphName c) with
  | some g => .ok (renderResolved f (glyphName c) g st m)
  | none =>
    match f.findGlyph (literalKey c) with
    | some g => .ok (renderResolved f (literalKey c) g st m)
    | none => .error c

/-- The Python error text recorded by `batch_convert` via `str` of the
raised `ValueError` (it quotes the offending character). -/
def errMsg (c : Char) : String :=
  "字符 \x27" ++ String.mk [c] ++ "\x27 不在字体文件中"

/-- The results dictionary of `batch_convert` plus the files it wrote
(name, content): the write inside `char_to_svg` happens only when the call
succeeds, since the only failure (glyph resolution) is raised before the
write. -/
structure BatchResult where
  success : Nat
  failed : Nat
  failed_chars : List (Char × String)
  files : List (String × String)
deriving Repr, DecidableEq

/-- The output file name used by `batch_convert`: `u`, the uppercase hex
of the code point, then `.svg`. -/
def batchFileName (c : Char) : String := "u" ++ toHexU c.toNat ++ ".svg"

/-- One loop iteration of `batch_convert`: try `char_to_svg`; on success
bump `success` and record the written file, on exception bump `failed` and
append the pair of the loop character and the error text. -/
def batchStep (f : Font) (st : Style) (m : VBMethod) (r : BatchResult)
    (c : Char) : BatchResult :=
  match char_to_svg f c st m with
  | .ok out =>
    { r with success := r.success + 1,
             files := r.files ++ [(batchFileName c, out.svg)] }
  | .error e =>
    { r with failed := r.failed + 1,
             failed_chars := r.failed_chars ++ [(c, errMsg e)] }

/-- Operation `batch_convert`: fold the per-character loop over the input
sequence, starting from zero counts and empty lists. -/
def batch_convert (f : Font) (chars : List Char) (st : Style)
    (m : VBMethod) : BatchResult :=
  chars.foldl (batchStep f st m) ⟨0, 0, [], []⟩

/-- Python split of the text on the newline character: the result is never
empty; the empty string splits to one empty line, a trailing newline yields
a trailing empty line. -/
def splitLines : List Char → List (List Char)
  | [] => [[]]
  | c :: rest =>
    if c = '\n' then [] :: splitLines rest
    else
      match splitLines rest with
      | [] => [[c]]
      | l :: ls => (c :: l) :: ls

/-- The width-measuring loop of `text_to_svg` (lines 220-231): inside the
`try`, a character only adds its `hmtx` advance when its `uni<HEX>` glyph
is in the glyph set; a missing hmtx entry raises and the except clause adds
the default 1000; a character whose glyph is absent under that key adds
nothing (the `if` has no `else` branch in this loop). -/
def lineWidthStep (f : Font) (w : Int) (c : Char) : Int :=
  if f.hasGlyph (glyphName c) then
    match f.lookupHmtx (glyphName c) with
    | some wl => w + wl.1
    | none => w + 1000
  else w

/-- The width-measuring fold of one line, starting from 0. -/
def lineWidth (f : Font) (line : List Char) : Int :=
  line.foldl (lineWidthStep f) 0

/-- One emitted `<g>`/`<path>` pair of `text_to_svg`: the translate x-slot
`x_pos - lsb`, the baseline `y_pos`, and the path data. -/
structure GlyphPlacement where
  tx : Int
  y : ℚ
  d : String
deriving Repr, DecidableEq

/-- One iteration of the per-character rendering loop of `text_to_svg`
(lines 255-272), over the cursor and the emitted placements: a resolvable
`uni<HEX>` glyph with metrics emits a placement and advances by its width;
a glyph whose metrics lookup raises emits nothing and the `except` advances
by 1000; an absent glyph advances by 1000 with no placement. -/
def lineStep (f : Font) (y : ℚ) (s : Int × List GlyphPlacement)
    (c : Char) : Int × List GlyphPlacement :=
  match f.findGlyph (glyphName c) with
  | some g =>
    match f.lookupHmtx (glyphName c) with
    | some (width, lsb) =>
      (s.1 + width, s.2 ++ [⟨s.1 - lsb, y, g.pathData⟩])
    | none => (s.1 + 1000, s.2)
  | none => (s.1 + 1000, s.2)

/-- Render one line of `text_to_svg`: cursor starts at 0 for every line. -/
def renderLine (f : Font) (y : ℚ) (line : List Char) :
    Int × List GlyphPlacement :=
  line.foldl (lineStep f y) (0, [])

/-- The quantities `text_to_svg` computes: the split lines, each line's
measured width, `max_width` (the viewBox width), `line_spacing`,
`total_height` (the viewBox height), and the per-line emitted glyph
placements.  Float arithmetic on `line_height` is embedded over `ℚ`. -/
structure TextSvg where
  lines : List (List Char)
  lineWidths : List Int
  maxWidth : Int
  lineSpacing : ℚ
  totalHeight : ℚ
  placements : List (List GlyphPlacement)
deriving Repr, DecidableEq

/-- Operation `text_to_svg` (lines 200-281): split on newlines, measure widths
(`max_width` starts at 0), compute `line_spacing = (ascent - descent) *
line_height` and `total_height = len(lines) * line_spacing`, then render
line `i` (0-based) at baseline `(i + 1) * line_spacing`. -/
def text_to_svg (f : Font) (text : List Char) (line_height : ℚ) : TextSvg :=
  let lines := splitLines text
  let widths := lines.map (lineWidth f)
  let spacing := ((f.ascent - f.descent : Int) : ℚ) * line_height
  { lines := lines,
    lineWidths := widths,
    maxWidth := widths.foldl max 0,
    lineSpacing := spacing,
    totalHeight := (lines.length : ℚ) * spacing,
    placements :=
      lines.enum.map (fun p => (renderLine f ((p.1 + 1 : ℕ) * spacing) p.2).2) }

/-- One cmap subtable as `get_available_chars` sees it: platform id,
platform-encoding id, and the set of code points its mapping contains
(only membership `code in cmap` is consulted). -/
structure CmapTable where
  platformID : Nat
  platEncID : Nat
  cmap : List Nat
deriving Repr, DecidableEq

/-- The Windows-table test of the first selection loop:
`table.platformID == 3 and table.platEncID in [1, 10]`. -/
def isWindowsTable (t : CmapTable) : Bool :=
  t.platformID = 3 && (t.platEncID = 1 || t.platEncID = 10)

/-- Subtable selection of `get_available_chars` (lines 54-63): the first
Windows table if any, else the first table of any platform/encoding,
else none. -/
def selectCmap (tables : List CmapTable) : Option (List Nat) :=
  match tables.find? isWindowsTable with
  | some t => some t.cmap
  | none => tables.head?.map CmapTable.cmap

/-- `get_available_chars` (lines 52-71), on code points: every code in
`range(start_code, end_code + 1)` present in the selected cmap, in
iteration (ascending) order; `[]` when no subtable exists. -/
def get_available_chars (tables : List CmapTable)
    (start_code end_code : Nat) : List Nat :=
  match selectCmap tables with
  | none => []
  | some cm =>
    (List.range' start_code (end_code + 1 - start_code)).filter
      (fun code => cm.contains code)

/-! Concrete fonts used to instantiate the theorems below. -/

/-- A glyph with an outline and bounds. -/
def gA : Glyph := ⟨"M10 0L20 0L20 10Z", some (50, 0, 550, 700)⟩

/-- A glyph with no contours (empty bounds), like a space. -/
def gB : Glyph := ⟨"", none⟩

/-- Font with glyph `uni41` (metrics 600/50), ascent 800, descent -200;
no glyph for the letter B at all. -/
def fontA : Font := ⟨[("uni41", gA)], [("uni41", (600, 50))], 800, -200⟩

/-- Like `fontA` but the glyph `uni42` exists while its hmtx entry is
missing (the metrics lookup raises). -/
def fontAB : Font :=
  ⟨[("uni41", gA), ("uni42", gB)], [("uni41", (600, 50))], 800, -200⟩

/-- Font whose only glyph is keyed by the literal letter B (no `uni42`). -/
def fontL : Font := ⟨[("B", gB)], [("B", (700, 30))], 800, -200⟩

/-- The default style of `char_to_svg`. -/
def defStyle : Style := ⟨"black", "none", "0"⟩

/-- The output of rendering the letter A from `fontA` under the metrics
policy. -/
def outMA : CharSvg := renderResolved fontA "uni41" gA defStyle .metrics

/-! Helper lemmas on `renderResolved` and `char_to_svg`. -/

theorem renderResolved_usedGlyphName (f : Font) (gn : String) (g : Glyph)
    (st : Style) (m : VBMethod) :
    (renderResolved f gn g st m).usedGlyphName = gn := by
  cases m with
  | metrics =>
    cases h : f.lookupHmtx gn with
    | none => simp [renderResolved, h]
    | some wl => obtain ⟨w, l⟩ := wl; simp [renderResolved, h]
  | bounds =>
    cases h : g.bounds with
    | none => simp [renderResolved, h]
    | some b => obtain ⟨x0, y0, x1, y1⟩ := b; simp [renderResolved, h]

theorem renderResolved_usedGlyph (f : Font) (gn : String) (g : Glyph)
    (st : Style) (m : VBMethod) :
    (renderResolved f gn g st m).usedGlyph = g := by
  cases m with
  | metrics =>
    cases h : f.lookupHmtx gn with
    | none => simp [renderResolved, h]
    | some wl => obtain ⟨w, l⟩ := wl; simp [renderResolved, h]
  | bounds =>
    cases h : g.bounds with
    | none => simp [renderResolved, h]
    | some b => obtain ⟨x0, y0, x1, y1⟩ := b; simp [renderResolved, h]

theorem renderResolved_pathData (f : Font) (gn : String) (g : Glyph)
    (st : Style) (m : VBMethod) :
    (renderResolved f gn g st m).pathData = g.pathData := by
  cases m with
  | metrics =>
    cases h : f.lookupHmtx gn with
    | none => simp [renderResolved, h]
    | some wl => obtain ⟨w, l⟩ := wl; simp [renderResolved, h]
  | bounds =>
    cases h : g.bounds with
    | none => simp [renderResolved, h]
    | some b => obtain ⟨x0, y0, x1, y1⟩ := b; simp [renderResolved, h]

theorem renderResolved_svg (f : Font) (gn : String) (g : Glyph)
    (st : Style) (m : VBMethod) :
    (renderResolved f gn g st m).svg =
      svgAssemble (renderResolved f gn g st m).viewbox
        (renderResolved f gn g st m).anchor st
        (renderResolved f gn g st m).pathData := by
  cases m with
  | metrics =>
    cases h : f.lookupHmtx gn with
    | none => simp [renderResolved, h]
    | some wl => obtain ⟨w, l⟩ := wl; simp [renderResolved, h]
  | bounds =>
    cases h : g.bounds with
    | none => simp [renderResolved, h]
    | some b => obtain ⟨x0, y0, x1, y1⟩ := b; simp [renderResolved, h]

theorem renderResolved_metrics_anchor (f : Font) (gn : String) (g : Glyph)
    (st : Style) :
    (renderResolved f gn g st .metrics).anchor = f.ascent := by
  cases h : f.lookupHmtx gn with
  | none => simp [renderResolved, h]
  | some wl => obtain ⟨w, l⟩ := wl; simp [renderResolved, h]

theorem renderResolved_metrics_viewbox_some (f : Font) (gn : String)
    (g : Glyph) (st : Style) (w l : Int) (h : f.lookupHmtx gn = some (w, l)) :
    (renderResolved f gn g st .metrics).viewbox =
      toString l ++ " 0 " ++ toString w ++ " " ++
        toString (f.ascent - f.descent) := by
  simp [renderResolved, h]

theorem renderResolved_metrics_viewbox_none (f : Font) (gn : String)
    (g : Glyph) (st : Style) (h : f.lookupHmtx gn = none) :
    (renderResolved f gn g st .metrics).viewbox =
      toString (0 : Int) ++ " 0 " ++ toString (1000 : Int) ++ " " ++
        toString (f.ascent - f.descent) := by
  simp [renderResolved, h]

theorem renderResolved_bounds_some (f : Font) (gn : String) (g : Glyph)
    (st : Style) (x0 y0 x1 y1 : Int) (h : g.bounds = some (x0, y0, x1, y1)) :
    (renderResolved f gn g st .bounds).viewbox =
        toString x0 ++ " " ++ toString y0 ++ " " ++ toString (x1 - x0) ++
          " " ++ toString (y1 - y0) ∧
      (renderResolved f gn g st .bounds).anchor = y1 := by
  constructor <;> simp [renderResolved, h]

theorem renderResolved_bounds_none (f : Font) (gn : String) (g : Glyph)
    (st : Style) (h : g.bounds = none) :
    (renderResolved f gn g st .bounds).viewbox = "0 0 1000 1000" ∧
      (renderResolved f gn g st .bounds).anchor = 1000 := by
  constructor <;> simp [renderResolved, h]

/-- Inversion principle for successful `char_to_svg` calls. -/
theorem char_to_svg_ok_iff (f : Font) (c : Char) (st : Style) (m : VBMethod)
    (out : CharSvg) :
    char_to_svg f c st m = Except.ok out ↔
      ((∃ g, f.findGlyph (glyphName c) = some g ∧
          out = renderResolved f (glyphName c) g st m) ∨
       (f.findGlyph (glyphName c) = none ∧
        ∃ g, f.findGlyph (literalKey c) = some g ∧
          out = renderResolved f (literalKey c) g st m)) := by
  unfold char_to_svg
  cases h1 : f.findGlyph (glyphName c) with
  | some g => simp [h1, eq_comm]
  | none =>
    cases h2 : f.findGlyph (literalKey c) with
    | some g => simp [h1, h2, eq_comm]
    | none => simp [h1, h2]

theorem hasGlyph_true (f : Font) (n : String) (h : f.hasGlyph n = true) :
    ∃ g, f.findGlyph n = some g := by
  unfold Font.hasGlyph at h
  rwa [Option.isSome_iff_exists] at h

theorem hasGlyph_false (f : Font) (n : String) (h : f.hasGlyph n = false) :
    f.findGlyph n = none := by
  unfold Font.hasGlyph at h
  cases hk : f.findGlyph n with
  | none => rfl
  | some g => rw [hk] at h; simp at h

/-- The output of rendering the letter A from `fontA` under the bounds
policy. -/
def outBA : CharSvg := renderResolved fontA "uni41" gA defStyle .bounds

/-- The output of rendering the letter B from `fontAB` under the bounds
policy (its glyph has no bounds). -/
def outBB : CharSvg := renderResolved fontAB "uni42" gB defStyle .bounds

/-- C2: `char_to_svg` resolves a character by first trying the primary key
`uni` + uppercase hex of the code point, then the glyph-set entry keyed by
the literal character, and it raises the glyph-not-found error naming the
character exactly when both keys are absent. -/
theorem char_resolution_order (f : Font) (c : Char) (st : Style)
    (m : VBMethod) :
    (f.hasGlyph (glyphName c) = true →
      ∃ out, char_to_svg f c st m = Except.ok out ∧
        out.usedGlyphName = glyphName c) ∧
    (f.hasGlyph (glyphName c) = false → f.hasGlyph (literalKey c) = true →
      ∃ out, char_to_svg f c st m = Except.ok out ∧
        out.usedGlyphName = literalKey c) ∧
    (char_to_svg f c st m = Except.error c ↔
      f.hasGlyph (glyphName c) = false ∧ f.hasGlyph (literalKey c) = false) := by
  refine ⟨?_, ?_, ?_⟩
  · intro h1
    obtain ⟨g, hg⟩ := hasGlyph_true f _ h1
    exact ⟨renderResolved f (glyphName c) g st m, by simp [char_to_svg, hg],
      renderResolved_usedGlyphName f (glyphName c) g st m⟩
  · intro h1 h2
    have hn := hasGlyph_false f _ h1
    obtain ⟨g, hg⟩ := hasGlyph_true f _ h2
    exact ⟨renderResolved f (literalKey c) g st m,
      by simp [char_to_svg, hn, hg],
      renderResolved_usedGlyphName f (literalKey c) g st m⟩
  · constructor
    · intro h
      unfold char_to_svg at h
      cases h1 : f.findGlyph (glyphName c) with
      | some g => rw [h1] at h; simp at h
      | none =>
        cases h2 : f.findGlyph (literalKey c) with
        | some g => rw [h1, h2] at h; simp at h
        | none =>
          constructor <;> · unfold Font.hasGlyph; simp [h1, h2]
    · rintro ⟨h1, h2⟩
      have hn1 := hasGlyph_false f _ h1
      have hn2 := hasGlyph_false f _ h2
      simp [char_to_svg, hn1, hn2]

/-- Witness for C2: in `fontA`, the letter B has neither the key uni42 nor
a literal-key entry, so `char_to_svg` fails naming it. -/
theorem char_resolution_order_witness :
    char_to_svg fontA 'B' defStyle .metrics = Except.error 'B' :=
  (char_resolution_order fontA 'B' defStyle .metrics).2.2.mpr
    ⟨by decide, by decide⟩

/-- Helper: the metrics-policy frame of `renderResolved`, for any resolved
glyph name. -/
theorem metrics_render_spec (f : Font) (gn : String) (g : Glyph)
    (st : Style) :
    (renderResolved f gn g st .metrics).anchor = f.ascent ∧
    (renderResolved f gn g st .metrics).svg =
      svgAssemble (renderResolved f gn g st .metrics).viewbox f.ascent st
        (renderResolved f gn g st .metrics).pathData ∧
    (∀ w l,
      f.lookupHmtx (renderResolved f gn g st .metrics).usedGlyphName =
          some (w, l) →
      (renderResolved f gn g st .metrics).viewbox =
        toString l ++ " 0 " ++ toString w ++ " " ++
          toString (f.ascent - f.descent)) ∧
    (f.lookupHmtx (renderResolved f gn g st .metrics).usedGlyphName = none →
      (renderResolved f gn g st .metrics).viewbox =
        toString (0 : Int) ++ " 0 " ++ toString (1000 : Int) ++ " " ++
          toString (f.ascent - f.descent)) := by
  have hn := renderResolved_usedGlyphName f gn g st .metrics
  refine ⟨renderResolved_metrics_anchor f gn g st, ?_, ?_, ?_⟩
  · rw [renderResolved_svg, renderResolved_metrics_anchor]
  · intro w l hw
    rw [hn] at hw
    exact renderResolved_metrics_viewbox_some f gn g st w l hw
  · intro hw
    rw [hn] at hw
    exact renderResolved_metrics_viewbox_none f gn g st hw

/-- Helper: the bounds-policy frame of `renderResolved`, for any resolved
glyph name. -/
theorem bounds_render_spec (f : Font) (gn : String) (g : Glyph)
    (st : Style) :
    (∀ x0 y0 x1 y1,
      (renderResolved f gn g st .bounds).usedGlyph.bounds =
          some (x0, y0, x1, y1) →
      (renderResolved f gn g st .bounds).viewbox =
        toString x0 ++ " " ++ toString y0 ++ " " ++
          toString (x1 - x0) ++ " " ++ toString (y1 - y0) ∧
      (renderResolved f gn g st .bounds).anchor = y1) ∧
    ((renderResolved f gn g st .bounds).usedGlyph.bounds = none →
      (renderResolved f gn g st .bounds).viewbox = "0 0 1000 1000" ∧
      (renderResolved f gn g st .bounds).anchor = 1000) := by
  have hug := renderResolved_usedGlyph f gn g st .bounds
  constructor
  · intro x0 y0 x1 y1 hb
    rw [hug] at hb
    exact renderResolved_bounds_some f gn g st x0 y0 x1 y1 hb
  · intro hb
    rw [hug] at hb
    exact renderResolved_bounds_none f gn g st hb

/-- C3: under the metrics policy a successful `char_to_svg` emits
viewBox = (leftSideBearing, 0, advanceWidth, ascent - descent), with
(1000, 0) substituted for (advanceWidth, leftSideBearing) when the metrics
lookup fails, and the flip anchor placed in the transform matrix equals the
ascent of the font. -/
theorem metrics_viewbox_spec (f : Font) (c : Char) (st : Style)
    (out : CharSvg) (h : char_to_svg f c st .metrics = Except.ok out) :
    out.anchor = f.ascent ∧
    out.svg = svgAssemble out.viewbox f.ascent st out.pathData ∧
    (∀ w l, f.lookupHmtx out.usedGlyphName = some (w, l) →
      out.viewbox = toString l ++ " 0 " ++ toString w ++ " " ++
        toString (f.ascent - f.descent)) ∧
    (f.lookupHmtx out.usedGlyphName = none →
      out.viewbox = toString (0 : Int) ++ " 0 " ++ toString (1000 : Int) ++
        " " ++ toString (f.ascent - f.descent)) := by
  rcases (char_to_svg_ok_iff f c st .metrics out).mp h with
    ⟨g, hg, rfl⟩ | ⟨hnone, g, hg, rfl⟩ <;>
  exact metrics_render_spec f _ g st

/-- Witness for C3: the letter A of `fontA` (advance 600, lsb 50,
ascent 800, descent -200) yields viewBox 50 0 600 1000 and anchor 800. -/
theorem metrics_viewbox_spec_witness :
    outMA.viewbox = "50 0 600 1000" ∧ outMA.anchor = 800 := by
  have h := metrics_viewbox_spec fontA 'A' defStyle outMA (by rfl)
  refine ⟨?_, h.1.trans (by decide)⟩
  have hv := h.2.2.1 600 50 (by decide)
  rw [hv]; decide

/-- C9: with the font data and all arguments fixed, `char_to_svg` is a
deterministic function: two calls agree exactly. -/
theorem char_to_svg_deterministic (f : Font) (c : Char) (st : Style)
    (m : VBMethod) (r1 r2 : Except Char CharSvg)
    (h1 : char_to_svg f c st m = r1) (h2 : char_to_svg f c st m = r2) :
    r1 = r2 :=
  h1.symm.trans h2

/-- Witness for C9: two renders of the letter A from `fontA` agree. -/
theorem char_to_svg_deterministic_witness :
    (Except.ok outMA : Except Char CharSvg) = Except.ok outMA :=
  char_to_svg_deterministic fontA 'A' defStyle .metrics _ _ (by rfl) (by rfl)

/-- C6: when both viewbox policies succeed on a character, they produce the
same path data, and each document is the common template instantiated at
its own viewBox and flip anchor only. -/
theorem viewbox_policy_frame_only (f : Font) (c : Char) (st : Style)
    (om ob : CharSvg)
    (hm : char_to_svg f c st .metrics = Except.ok om)
    (hb : char_to_svg f c st .bounds = Except.ok ob) :
    om.pathData = ob.pathData ∧
    om.svg = svgAssemble om.viewbox om.anchor st om.pathData ∧
    ob.svg = svgAssemble ob.viewbox ob.anchor st ob.pathData := by
  rcases (char_to_svg_ok_iff f c st .metrics om).mp hm with
    ⟨g, hg, rfl⟩ | ⟨hnone, g, hg, rfl⟩ <;>
  rcases (char_to_svg_ok_iff f c st .bounds ob).mp hb with
    ⟨g2, hg2, rfl⟩ | ⟨hnone2, g2, hg2, rfl⟩
  · obtain rfl : g = g2 := by rw [hg] at hg2; exact (Option.some.inj hg2)
    exact ⟨(renderResolved_pathData ..).trans (renderResolved_pathData ..).symm,
      renderResolved_svg .., renderResolved_svg ..⟩
  · rw [hnone2] at hg; cases hg
  · rw [hnone] at hg2; cases hg2
  · obtain rfl : g = g2 := by rw [hg] at hg2; exact (Option.some.inj hg2)
    exact ⟨(renderResolved_pathData ..).trans (renderResolved_pathData ..).symm,
      renderResolved_svg .., renderResolved_svg ..⟩

/-- Witness for C6: the letter A of `fontA` has identical path data under
the metrics and bounds policies. -/
theorem viewbox_policy_frame_only_witness : outMA.pathData = outBA.pathData :=
  (viewbox_policy_frame_only fontA 'A' defStyle outMA outBA
    (by rfl) (by rfl)).1

/-- C7: under the bounds policy a successful `char_to_svg` emits, for a
glyph with bounds (xMin, yMin, xMax, yMax), the viewBox
(xMin, yMin, xMax - xMin, yMax - yMin) with flip anchor yMax, and for a
glyph with no bounds the viewBox 0 0 1000 1000 with flip anchor 1000. -/
theorem bounds_viewbox_spec (f : Font) (c : Char) (st : Style)
    (out : CharSvg) (h : char_to_svg f c st .bounds = Except.ok out) :
    (∀ x0 y0 x1 y1, out.usedGlyph.bounds = some (x0, y0, x1, y1) →
      out.viewbox = toString x0 ++ " " ++ toString y0 ++ " " ++
        toString (x1 - x0) ++ " " ++ toString (y1 - y0) ∧
      out.anchor = y1) ∧
    (out.usedGlyph.bounds = none →
      out.viewbox = "0 0 1000 1000" ∧ out.anchor = 1000) := by
  rcases (char_to_svg_ok_iff f c st .bounds out).mp h with
    ⟨g, hg, rfl⟩ | ⟨hnone, g, hg, rfl⟩ <;>
  exact bounds_render_spec f _ g st

/-- Witness for C7: the letter A of `fontA` has bounds (50, 0, 550, 700),
so the bounds policy emits viewBox 50 0 500 700 with anchor 700. -/
theorem bounds_viewbox_spec_witness :
    outBA.viewbox = "50 0 500 700" ∧ outBA.anchor = 700 := by
  have h := (bounds_viewbox_spec fontA 'A' defStyle outBA (by rfl)).1
    50 0 550 700 (by decide)
  exact ⟨h.1.trans (by decide), h.2⟩

/-- Per-character contribution to a measured line width, as the source
computes it: the hmtx advance when the primary-key glyph and its metrics
both exist, 1000 when the glyph exists but the metrics lookup raises, and
0 when the glyph is absent under the primary key. -/
def widthContrib (f : Font) (c : Char) : Int :=
  if f.hasGlyph (glyphName c) then
    match f.lookupHmtx (glyphName c) with
    | some wl => wl.1
    | none => 1000
  else 0

theorem lineWidthStep_eq (f : Font) (w : Int) (c : Char) :
    lineWidthStep f w c = w + widthContrib f c := by
  unfold lineWidthStep widthContrib
  cases hg : f.hasGlyph (glyphName c) with
  | false => simp
  | true =>
    cases hm : f.lookupHmtx (glyphName c) with
    | none => simp
    | some wl => simp

theorem lineWidth_eq_sum (f : Font) (l : List Char) :
    lineWidth f l = (l.map (widthContrib f)).sum := by
  suffices h : ∀ a : Int, l.foldl (lineWidthStep f) a =
      a + (l.map (widthContrib f)).sum by
    simpa using h 0
  induction l with
  | nil => intro a; simp
  | cons c cs ih =>
    intro a
    rw [List.foldl_cons, ih, lineWidthStep_eq, List.map_cons, List.sum_cons]
    ring

theorem foldl_max_init_le (l : List Int) (a : Int) : a ≤ l.foldl max a := by
  induction l generalizing a with
  | nil => simp
  | cons x xs ih => exact le_trans (le_max_left a x) (ih (max a x))

theorem mem_le_foldl_max (l : List Int) (a b : Int) (hb : b ∈ l) :
    b ≤ l.foldl max a := by
  induction l generalizing a with
  | nil => cases hb
  | cons x xs ih =>
    rw [List.foldl_cons]
    rcases List.mem_cons.mp hb with rfl | h
    · exact le_trans (le_max_right a b) (foldl_max_init_le xs (max a b))
    · exact ih (max a x) h

theorem foldl_max_mem_or_init (l : List Int) (a : Int) :
    l.foldl max a ∈ l ∨ l.foldl max a = a := by
  induction l generalizing a with
  | nil => right; rfl
  | cons x xs ih =>
    rw [List.foldl_cons]
    rcases ih (max a x) with h | h
    · left; exact List.mem_cons_of_mem x h
    · rcases max_choice a x with hax | hax
      · right; rw [h, hax]
      · left; rw [h, hax]; exact List.mem_cons_self x xs

/-- Counterexample to C1: in `fontA` the letter B has no glyph under any
key, so the width-measuring loop adds nothing for it (the default 1000 is
only added when the metrics lookup of a present glyph raises); the line AB
measures 600, not the claimed 600 + 1000 = 1600. -/
theorem text_width_default_cex :
    (text_to_svg fontA ('A' :: ['B']) (6 / 5)).maxWidth = 600 ∧
    (text_to_svg fontA ('A' :: ['B']) (6 / 5)).maxWidth ≠ 1600 := by
  constructor <;> decide

/-- C1 (amended): each measured line width is the sum of per-character
contributions, where a character contributes its hmtx advance when its
primary-key glyph and metrics exist, the default 1000 when the glyph
exists but its metrics lookup fails, and 0 when the glyph is absent; the
document width is the running maximum of the line widths started at 0 (so
it bounds every line width and is one of them or 0); a line AB where A has
advance 600 and B has a glyph but no metrics entry measures
600 + 1000 = 1600. -/
theorem text_width_spec (f : Font) (text : List Char) (lh : ℚ) :
    (text_to_svg f text lh).lineWidths =
      (splitLines text).map (fun l => (l.map (widthContrib f)).sum) ∧
    (text_to_svg f text lh).maxWidth =
      (text_to_svg f text lh).lineWidths.foldl max 0 ∧
    (∀ w ∈ (text_to_svg f text lh).lineWidths,
      w ≤ (text_to_svg f text lh).maxWidth) ∧
    ((text_to_svg f text lh).maxWidth ∈ (text_to_svg f text lh).lineWidths ∨
      (text_to_svg f text lh).maxWidth = 0) ∧
    (text_to_svg fontAB ('A' :: ['B']) lh).maxWidth = 600 + 1000 := by
  refine ⟨?_, rfl, ?_, ?_, ?_⟩
  · show (splitLines text).map (lineWidth f) = _
    exact List.map_congr_left (fun l _ => lineWidth_eq_sum f l)
  · intro w hw
    exact mem_le_foldl_max _ 0 w hw
  · exact foldl_max_mem_or_init _ 0
  · show ((splitLines ('A' :: ['B'])).map (lineWidth fontAB)).foldl max 0 =
      600 + 1000
    decide

/-- Witness for C1 (amended): the width 600 of the single line AB in
`fontA` is bounded by the document width. -/
theorem text_width_spec_witness :
    (600 : Int) ≤ (text_to_svg fontA ('A' :: ['B']) 2).maxWidth :=
  (text_width_spec fontA ('A' :: ['B']) 2).2.2.1 600 (by decide)

/-- C5: `text_to_svg` splits the text on newline characters, sets the line
spacing to (ascent - descent) times the multiplier and the document height
to the line count times the spacing; each line slot renders independently
of the others with its cursor starting at 0, an empty line measures width
0 and renders nothing, and a text with an empty line between two nonempty
lines occupies three line slots of total height three times the spacing. -/
theorem text_layout_spec (f : Font) (text : List Char) (lh : ℚ) :
    (text_to_svg f text lh).lines = splitLines text ∧
    (text_to_svg f text lh).lineSpacing =
      ((f.ascent - f.descent : Int) : ℚ) * lh ∧
    (text_to_svg f text lh).totalHeight =
      ((text_to_svg f text lh).lines.length : ℚ) *
        (text_to_svg f text lh).lineSpacing ∧
    (∀ i l, (text_to_svg f text lh).lines[i]? = some l →
      (text_to_svg f text lh).placements[i]? =
        some (renderLine f
          (((i + 1 : ℕ) : ℚ) * (text_to_svg f text lh).lineSpacing) l).2) ∧
    lineWidth f [] = 0 ∧
    (∀ y, renderLine f y [] = (0, [])) ∧
    (text_to_svg f ('A' :: '\n' :: '\n' :: ['A']) lh).totalHeight =
      3 * (text_to_svg f ('A' :: '\n' :: '\n' :: ['A']) lh).lineSpacing ∧
    (text_to_svg f ('A' :: '\n' :: '\n' :: ['A']) lh).lineWidths =
      [lineWidth f ['A'], 0, lineWidth f ['A']] := by
  refine ⟨rfl, rfl, rfl, ?_, rfl, fun y => rfl, ?_, ?_⟩
  · intro i l hl
    show ((splitLines text).enum.map _)[i]? = _
    rw [List.getElem?_map, List.getElem?_enum]
    have hl2 : (splitLines text)[i]? = some l := hl
    rw [hl2]
    rfl
  · have hs : splitLines ('A' :: '\n' :: '\n' :: ['A']) =
        [['A'], [], ['A']] := by decide
    have h3 : (text_to_svg f ('A' :: '\n' :: '\n' :: ['A']) lh).totalHeight =
        ((splitLines ('A' :: '\n' :: '\n' :: ['A'])).length : ℚ) *
          (text_to_svg f ('A' :: '\n' :: '\n' :: ['A']) lh).lineSpacing :=
      rfl
    rw [h3, hs]
    norm_num
  · show (splitLines ('A' :: '\n' :: '\n' :: ['A'])).map (lineWidth f) = _
    have hs : splitLines ('A' :: '\n' :: '\n' :: ['A']) =
        [['A'], [], ['A']] := by decide
    rw [hs]
    rfl

/-- Witness for C5: the first line slot of the one-line text A in `fontA`
is rendered from that line alone at baseline one spacing. -/
theorem text_layout_spec_witness :
    (text_to_svg fontA ['A'] 2).placements[0]? =
      some (renderLine fontA
        (((0 + 1 : ℕ) : ℚ) * (text_to_svg fontA ['A'] 2).lineSpacing)
        ['A']).2 :=
  (text_layout_spec fontA ['A'] 2).2.2.2.1 0 ['A'] (by rfl)

/-- C8: a character whose glyph exists only under the literal-character
key is treated as missing by the text renderer: its loop step emits no
placement and advances the cursor by the default 1000, even though
`char_to_svg` succeeds on the same character through the literal-key
fallback. -/
theorem text_literal_fallback_gap (f : Font) (c : Char)
    (h1 : f.hasGlyph (glyphName c) = false)
    (h2 : f.hasGlyph (literalKey c) = true) :
    (∀ (y : ℚ) (x : Int) (acc : List GlyphPlacement),
      lineStep f y (x, acc) c = (x + 1000, acc)) ∧
    (∀ st m, ∃ out, char_to_svg f c st m = Except.ok out ∧
      out.usedGlyphName = literalKey c) := by
  have hn := hasGlyph_false f _ h1
  obtain ⟨g, hg⟩ := hasGlyph_true f _ h2
  constructor
  · intro y x acc
    simp [lineStep, hn]
  · intro st m
    exact ⟨renderResolved f (literalKey c) g st m,
      by simp [char_to_svg, hn, hg],
      renderResolved_usedGlyphName f (literalKey c) g st m⟩

/-- Witness for C8: in `fontL`, the letter B exists only under its literal
key, and the text-rendering step skips it while advancing by 1000. -/
theorem text_literal_fallback_gap_witness :
    lineStep fontL 2 (0, []) 'B' = (1000, []) :=
  ((text_literal_fallback_gap fontL 'B' (by decide) (by decide)).1
    2 0 []).trans (by decide)

/-- The files a batch over `chars` writes, in input order: one per
character on which `char_to_svg` succeeds. -/
def batchSuccessList (f : Font) (st : Style) (m : VBMethod)
    (chars : List Char) : List (String × String) :=
  chars.filterMap (fun c =>
    match char_to_svg f c st m with
    | .ok out => some (batchFileName c, out.svg)
    | .error _ => none)

/-- The failure pairs a batch over `chars` records, in input order: one per
character on which `char_to_svg` raises. -/
def batchFailList (f : Font) (st : Style) (m : VBMethod)
    (chars : List Char) : List (Char × String) :=
  chars.filterMap (fun c =>
    match char_to_svg f c st m with
    | .ok _ => none
    | .error e => some (c, errMsg e))

theorem batch_convert_go (f : Font) (st : Style) (m : VBMethod)
    (chars : List Char) (r : BatchResult) :
    chars.foldl (batchStep f st m) r =
      ⟨r.success + (batchSuccessList f st m chars).length,
       r.failed + (batchFailList f st m chars).length,
       r.failed_chars ++ batchFailList f st m chars,
       r.files ++ batchSuccessList f st m chars⟩ := by
  induction chars generalizing r with
  | nil => simp [batchSuccessList, batchFailList]
  | cons c cs ih =>
    rw [List.foldl_cons, ih]
    unfold batchSuccessList batchFailList
    rw [List.filterMap_cons, List.filterMap_cons]
    cases h : char_to_svg f c st m with
    | ok out =>
      simp only [batchStep, h]
      simp [List.append_assoc]
      all_goals omega
    | error e =>
      simp only [batchStep, h]
      simp [List.append_assoc]
      all_goals omega

theorem batch_partition_length (f : Font) (st : Style) (m : VBMethod)
    (chars : List Char) :
    (batchSuccessList f st m chars).length +
      (batchFailList f st m chars).length = chars.length := by
  induction chars with
  | nil => rfl
  | cons c cs ih =>
    unfold batchSuccessList batchFailList at *
    rw [List.filterMap_cons, List.filterMap_cons]
    cases h : char_to_svg f c st m with
    | ok out => simp only [h, List.length_cons]; omega
    | error e => simp only [h, List.length_cons]; omega

/-- C4: `batch_convert` attempts every character independently and never
aborts: the success and failure counts add up to the input length, the
failure list records (character, error text) pairs in input order, and a
file named by the uppercase-hex code point is written exactly for the
characters on which `char_to_svg` succeeds, also in input order; in the
concrete good/bad pair AB over `fontA` the batch reports one success, one
failure, and writes only the file of A. -/
theorem batch_convert_spec (f : Font) (chars : List Char) (st : Style)
    (m : VBMethod) :
    (batch_convert f chars st m).success +
      (batch_convert f chars st m).failed = chars.length ∧
    (batch_convert f chars st m).failed_chars = batchFailList f st m chars ∧
    (batch_convert f chars st m).files = batchSuccessList f st m chars ∧
    (batch_convert f chars st m).success =
      (batchSuccessList f st m chars).length ∧
    (batch_convert f chars st m).failed =
      (batchFailList f st m chars).length ∧
    batch_convert fontA ('A' :: ['B']) defStyle .metrics =
      ⟨1, 1, [('B', errMsg 'B')], [("u41.svg", outMA.svg)]⟩ := by
  have h := batch_convert_go f st m chars ⟨0, 0, [], []⟩
  unfold batch_convert
  rw [h]
  have hlen := batch_partition_length f st m chars
  refine ⟨by simpa using hlen, by simp, by simp, by simp, by simp, ?_⟩
  have hgo := batch_convert_go fontA defStyle .metrics ('A' :: ['B'])
    ⟨0, 0, [], []⟩
  rw [hgo]
  have hs : batchSuccessList fontA defStyle .metrics ('A' :: ['B']) =
      [("u41.svg", outMA.svg)] := by rfl
  have hf : batchFailList fontA defStyle .metrics ('A' :: ['B']) =
      [('B', errMsg 'B')] := by rfl
  rw [hs, hf]
  rfl

/-- C10: `get_available_chars` selects the first Windows cmap subtable
(platform 3, encoding 1 or 10) when one exists, else the first subtable of
any platform; it returns exactly the code points of the queried closed
range that the selected subtable contains, in ascending order. -/
theorem get_available_chars_spec (tables : List CmapTable) (s e : Nat) :
    (∀ t, tables.find? isWindowsTable = some t →
      selectCmap tables = some t.cmap) ∧
    (tables.find? isWindowsTable = none → ∀ t0 ts, tables = t0 :: ts →
      selectCmap tables = some t0.cmap) ∧
    (∀ cm, selectCmap tables = some cm →
      ∀ code, code ∈ get_available_chars tables s e ↔
        s ≤ code ∧ code ≤ e ∧ code ∈ cm) ∧
    List.Pairwise (· < ·) (get_available_chars tables s e) := by
  refine ⟨?_, ?_, ?_, ?_⟩
  · intro t ht; simp [selectCmap, ht]
  · intro hnone t0 ts hts
    subst hts
    simp [selectCmap, hnone]
  · intro cm hcm code
    unfold get_available_chars
    rw [hcm]
    rw [List.mem_filter, List.mem_range'_1]
    constructor
    · rintro ⟨⟨h1, h2⟩, h3⟩
      refine ⟨h1, by omega, ?_⟩
      simpa [List.contains, List.elem_iff] using h3
    · rintro ⟨h1, h2, h3⟩
      refine ⟨⟨h1, by omega⟩, ?_⟩
      simpa [List.contains, List.elem_iff] using h3
  · unfold get_available_chars
    cases hcm : selectCmap tables with
    | none => simp
    | some cm => exact (List.pairwise_lt_range' s (e + 1 - s)).filter _

/-- A cmap table list whose Windows subtable is second: the selection must
skip the first (platform 0) table. -/
def tablesW : List CmapTable := [⟨0, 3, [70]⟩, ⟨3, 1, [65, 66, 200]⟩]

/-- Witness for C10: code point 65 of the Windows subtable of `tablesW`
lies in the queried range and is listed. -/
theorem get_available_chars_spec_witness :
    65 ∈ get_available_chars tablesW 60 100 :=
  ((get_available_chars_spec tablesW 60 100).2.2.1 [65, 66, 200]
    (by decide) 65).mpr ⟨by decide, by decide, by decide⟩

